import Mathlib

/-
Verification of the agent orchestration subsystem of a multi-agent
novel-writing assistant (TypeScript sources).

The embedding is shallow: TypeScript classes become Lean structures,
methods become functions over explicit state, exceptions become Except,
and the asynchronous model calls become explicit function parameters
(the outcome of the external call per attempt).  Strings are modeled as
Lean String or List Char; JavaScript Map objects (insertion ordered,
unique keys) are modeled as association lists with set/erase operations
that preserve the insertion order.  JSON.parse of the structured data
block is an external library call and is modeled as an abstract decode
parameter.  Whitespace for trim and the bullet stripping regex is
modeled by the ASCII whitespace characters that occur in the sources.
-/

set_option maxHeartbeats 1000000

deriving instance DecidableEq for Except

/-! ## Association list utilities (model of JavaScript Map semantics) -/

/-- Lookup of the first entry with the given key, as Map.get. -/
def lookupKey {β : Type} : List (String × β) → String → Option β
  | [], _ => none
  | (k, v) :: rest, key => if k = key then some v else lookupKey rest key

/-- Map.set semantics: replace the entry in place if the key is present,
otherwise append at the end (insertion order preserved). -/
def setEntry {β : Type} : List (String × β) → String → β → List (String × β)
  | [], key, v => [(key, v)]
  | (k, w) :: rest, key, v =>
      if k = key then (key, v) :: rest else (k, w) :: setEntry rest key v

/-- Map.delete semantics: remove the entry with the given key. -/
def eraseEntry {β : Type} : List (String × β) → String → List (String × β)
  | [], _ => []
  | (k, v) :: rest, key => if k = key then rest else (k, v) :: eraseEntry rest key

/-! ## Text machinery for BaseAgent.parseStructuredOutput

The TypeScript method runs the regexes
content.match(/【建议】([\s\S]*?)(?=【|$)/) and
content.match(/【数据】([\s\S]*?)(?=【|$)/) and removes the matched spans.
A match starts at the first occurrence of the marker; the lazy capture
extends up to (not including) the next 【 character or the end of the
text; the lookahead consumes nothing, so removal keeps the stopping 【. -/

/-- Splits a character list at the first occurrence of the marker:
returns the part before the marker and the part after it. -/
def splitAtMarker (marker : List Char) : List Char → Option (List Char × List Char)
  | [] => if marker = [] then some ([], []) else none
  | c :: cs =>
      if marker.isPrefixOf (c :: cs) then some ([], (c :: cs).drop marker.length)
      else
        match splitAtMarker marker cs with
        | some (pre, post) => some (c :: pre, post)
        | none => none

/-- Lazy capture of the regexes: characters up to the next 【 (exclusive),
paired with the rest starting at that 【 (or empty at end of input). -/
def takeUntilLB : List Char → List Char × List Char
  | [] => ([], [])
  | c :: cs =>
      if c = '【' then ([], c :: cs)
      else
        match takeUntilLB cs with
        | (cap, rest) => (c :: cap, rest)

/-- Captured group of the first section introduced by the marker, as the
regex match returns it. -/
def matchSection (marker : List Char) (content : List Char) : Option (List Char) :=
  (splitAtMarker marker content).map (fun p => (takeUntilLB p.2).1)

/-- Removal of the first matched section span (marker plus lazy capture),
as String.replace with the empty string does. -/
def removeSection (marker : List Char) (content : List Char) : List Char :=
  match splitAtMarker marker content with
  | none => content
  | some (pre, post) => pre ++ (takeUntilLB post).2

/-- Whitespace recognized by trim, modeled by the ASCII whitespace
characters occurring in the sources. -/
def isJsWs (c : Char) : Bool := c = ' ' || c = '\t' || c = '\n' || c = '\r'

/-- String.prototype.trim on a character list. -/
def trimChars (cs : List Char) : List Char :=
  ((cs.dropWhile isJsWs).reverse.dropWhile isJsWs).reverse

/-- String.prototype.split on the newline character. -/
def splitLines : List Char → List (List Char)
  | [] => [[]]
  | c :: cs =>
      if c = '\n' then [] :: splitLines cs
      else
        match splitLines cs with
        | l :: ls => (c :: l) :: ls
        | [] => [[c]]

/-- The per-line replacement of a leading bullet and following whitespace,
modeling s.replace with the leading bullet regex. -/
def stripBullet : List Char → List Char
  | [] => []
  | c :: rest =>
      if c = '-' || c = '*' || c = '•' then rest.dropWhile isJsWs else c :: rest

/-! ## Agent output data model -/

/-- Structured JSON-like values carried in the data payload.  Only the
shapes the embedded code constructs are distinguished; decoded values
from the model response come from the abstract decode parameter. -/
inductive JVal where
  | s : String → JVal
  | emptyObj : JVal
  | emptyArr : JVal
deriving DecidableEq, Repr

/-- The structured data payload, a Record from string keys to values. -/
abbrev DataMap : Type := List (String × JVal)

/-- JavaScript truthiness on the modeled values: the empty string is the
only falsy value among those representable here (objects and arrays are
always truthy). -/
def jsFalsy : JVal → Bool
  | .s str => str = ""
  | .emptyObj => false
  | .emptyArr => false

/-- The JavaScript expression x || d on an optional field lookup. -/
def jsOr (x : Option JVal) (d : JVal) : JVal :=
  match x with
  | some v => if jsFalsy v then d else v
  | none => d

/-- AgentOutput as produced by the agents.  Optional fields that a
producer leaves undefined are modeled by none or the empty list. -/
structure AgentOutput where
  content : List Char
  suggestions : List (List Char)
  data : DataMap
  confidence : ℚ
  requiresFollowUp : Bool
  collaborationTags : Option (List String)
deriving DecidableEq

/-- Default confidence of BaseAgent.formatOutput. -/
def defaultConfidence : ℚ := 0.8

/-- BaseAgent.formatOutput: normal formatting path.  The confidence is an
explicit argument here because Lean default arguments are not used; call
sites that omit it in TypeScript pass defaultConfidence. -/
def formatOutput (content : List Char) (suggestions : List (List Char))
    (data : DataMap) (confidence : ℚ) (tags : List String) : AgentOutput :=
  { content := content
    suggestions := suggestions
    data := data
    confidence := confidence
    requiresFollowUp := false
    collaborationTags := some tags }

/-- BaseAgent.handleError: the degraded output returned when dispatch
raised.  The data payload carries the error message under the key
error; collaborationTags is left undefined. -/
def handleError (errMsg : String) (ctxName : List Char) : AgentOutput :=
  { content := "抱歉，在".toList ++ ctxName ++ "过程中遇到了问题。请稍后重试或检查配置。".toList
    suggestions := ["检查网络连接".toList, "验证AI模型配置".toList, "重新尝试请求".toList]
    data := [("error", JVal.s errMsg)]
    confidence := 0
    requiresFollowUp := true
    collaborationTags := none }

/-- Marker of the suggestions section. -/
def suggMarker : List Char := "【建议】".toList

/-- Marker of the structured data section. -/
def dataMarker : List Char := "【数据】".toList

/-- Result record of BaseAgent.parseStructuredOutput. -/
structure ParsedOutput where
  mainContent : List Char
  suggestions : List (List Char)
  data : DataMap
deriving DecidableEq

/-- BaseAgent.parseStructuredOutput.  The decode parameter stands for
JSON.parse on the trimmed capture; a decode failure (the catch branch)
leaves the default empty data. -/
def parseStructuredOutput (decode : List Char → Option DataMap)
    (content : List Char) : ParsedOutput :=
  let suggestions :=
    match matchSection suggMarker content with
    | some cap =>
        ((splitLines (trimChars cap)).map (fun l => trimChars (stripBullet l))).filter
          (fun l => l ≠ [])
    | none => []
  let data :=
    match matchSection dataMarker content with
    | some cap => (decode (trimChars cap)).getD []
    | none => []
  let mainContent := trimChars (removeSection dataMarker (removeSection suggMarker content))
  { mainContent := mainContent, suggestions := suggestions, data := data }

/-! ## ThemePlannerAgent.processInput -/

/-- The slice of AgentContext that the control flow of processInput
depends on: truthiness of the project reference and of the user input. -/
structure AgentContextM where
  projectPresent : Bool
  userInput : List Char
deriving DecidableEq

/-- BaseAgent.validateContext: double negation of project and userInput,
where the empty string is falsy. -/
def validateContext (ctx : AgentContextM) : Bool :=
  ctx.projectPresent && ctx.userInput ≠ []

/-- Collaboration tags of ThemePlannerAgent.getCollaborationTags. -/
def themeTags : List String := ["world", "character", "outline", "plot"]

/-- The data payload assembled by ThemePlannerAgent.processInput from the
parsed structured data, with the JavaScript || defaults per field. -/
def themeData (d : DataMap) : DataMap :=
  [("themeAnalysis", jsOr (lookupKey d "themeAnalysis") JVal.emptyObj),
   ("marketTrends", jsOr (lookupKey d "marketTrends") JVal.emptyArr),
   ("targetAudienceInsights", jsOr (lookupKey d "targetAudienceInsights") JVal.emptyObj),
   ("recommendedDirections", jsOr (lookupKey d "recommendedDirections") JVal.emptyArr),
   ("genreConsiderations", jsOr (lookupKey d "genreConsiderations") JVal.emptyObj)]

/-- ThemePlannerAgent.processInput.  The backend parameter is the outcome
of sendAIRequest (prompt building is pure string assembly on a validated
context and cannot raise); an Except.error models a thrown exception,
which the catch converts through handleError. -/
def themeProcessInput (backend : Except String (List Char))
    (decode : List Char → Option DataMap) (ctx : AgentContextM) : AgentOutput :=
  if ¬ validateContext ctx then handleError "Invalid context" "processInput".toList
  else
    match backend with
    | .error e => handleError e "主题分析".toList
    | .ok response =>
        let parsed := parseStructuredOutput decode response
        formatOutput parsed.mainContent parsed.suggestions (themeData parsed.data)
          0.85 themeTags

/-- Every confidence value passed to formatOutput across the seven agent
classes: the default 0.8 plus the explicit per-agent constants. -/
def agentConfidences : List ℚ := [0.8, 0.84, 0.85, 0.86, 0.87, 0.88, 0.89]

/-- Outputs producible by the agent implementations: the normal
formatting path at one of the call-site confidence values, or the
error handling path. -/
def ProducedOutput (o : AgentOutput) : Prop :=
  (∃ c s d conf tags, conf ∈ agentConfidences ∧ o = formatOutput c s d conf tags) ∨
  (∃ e cn, o = handleError e cn)

/-! ## Agent registry and hub (AgentCollaborationHub, AgentManager) -/

/-- A registered agent instance: the fields of getAgentInfo plus the
enabled flag of its configuration.  The field agentType models the
source field named type. -/
structure AgentRec where
  id : String
  name : String
  agentType : String
  description : String
  enabled : Bool
deriving DecidableEq

/-- Lookup in the live agent map by id (Map.get keyed by agent id). -/
def findAgent (agents : List AgentRec) (agentId : String) : Option AgentRec :=
  agents.find? (fun a => a.id == agentId)

/-- Map.set keyed by agent id, modeling registerAgent. -/
def setAgent : List AgentRec → AgentRec → List AgentRec
  | [], a => [a]
  | b :: rest, a => if b.id = a.id then a :: rest else b :: setAgent rest a

/-- Map.delete keyed by agent id, modeling unregisterAgent. -/
def eraseAgent : List AgentRec → String → List AgentRec
  | [], _ => []
  | b :: rest, agentId => if b.id = agentId then rest else b :: eraseAgent rest agentId

/-- AgentCollaborationHub.sendMessageToAgent.  proc stands for the
enhanced-context dispatch (enhanceContextWithCollaboration followed by
agent.processInput and the collaboration data save); the returned list
records which agent ids were dispatched, so an empty list means the
dispatch (and hence any provider call) was never attempted. -/
def sendMessageToAgent (agents : List AgentRec)
    (proc : String → Except String AgentOutput) (agentId : String) :
    Except String AgentOutput × List String :=
  match findAgent agents agentId with
  | none => (.error ("Agent not found: " ++ agentId), [])
  | some a =>
      if ¬ a.enabled then (.error ("Agent is disabled: " ++ agentId), [])
      else (proc agentId, [agentId])

/-- The agent specialties that AgentManager.createAgent can construct. -/
def knownAgentTypes : List String :=
  ["theme", "outline", "world", "character", "relationship", "dialogue", "plot"]

/-- AgentManager state: the configured descriptors (ConfigManager) and
the live agent map.  The hub map mirrors the manager map through the
register and unregister calls, so one list models both. -/
structure MgrState where
  configs : List AgentRec
  agents : List AgentRec
deriving DecidableEq

/-- AgentManager.updateAgentConfig specialized to the enabled flag: the
live instance (when loaded) merges the partial config, and the stored
descriptor list is rewritten. -/
def updateAgentEnabled (st : MgrState) (agentId : String) (enabled : Bool) : MgrState :=
  { configs := st.configs.map (fun a => if a.id = agentId then { a with enabled := enabled } else a)
    agents := st.agents.map (fun a => if a.id = agentId then { a with enabled := enabled } else a) }

/-- AgentManager.setAgentEnabled: update the config, then load or unload
the live instance as the flag demands. -/
def setAgentEnabled (st : MgrState) (agentId : String) (enabled : Bool) : MgrState :=
  let st1 := updateAgentEnabled st agentId enabled
  if enabled then
    if (findAgent st1.agents agentId).isNone then
      match st1.configs.find? (fun a => a.id == agentId) with
      | some cfg =>
          if knownAgentTypes.contains cfg.agentType then
            { st1 with agents := setAgent st1.agents cfg }
          else st1
      | none => st1
    else st1
  else
    if (findAgent st1.agents agentId).isSome then
      { st1 with agents := eraseAgent st1.agents agentId }
    else st1

/-- AgentManager.batchProcess: the loop over the requests with the
per-item try/catch.  send stands for this.sendMessage. -/
def batchProcess (send : String → AgentContextM → Except String AgentOutput) :
    List (String × AgentContextM) → List (String × Except String AgentOutput)
  | [] => []
  | r :: rest => (r.1, send r.1 r.2) :: batchProcess send rest

/-! ## Collaboration sessions -/

/-- Session status values. -/
inductive SessionStatus where
  | active
  | paused
  | completed
deriving DecidableEq

/-- CollaborationSession (creation timestamps elided). -/
structure SessionM where
  id : String
  projectId : String
  participants : List String
  topic : String
  messages : List String
  sharedContext : DataMap
  status : SessionStatus
deriving DecidableEq

/-- The participant collection loop of startCollaborationSession: for
each requested type, the first registered agent of that type is looked
up, and its id is pushed only when that agent is enabled. -/
def participantsLoop (agents : List AgentRec) : List String → List String
  | [] => []
  | t :: ts =>
      match agents.find? (fun a => a.agentType == t) with
      | some a =>
          if a.enabled then a.id :: participantsLoop agents ts
          else participantsLoop agents ts
      | none => participantsLoop agents ts

/-- AgentCollaborationHub.startCollaborationSession.  The generated
session id is a parameter (timestamp plus random suffix in the source).
Returns the id given back to the caller, the updated activeSessions map,
and the session value handed to saveCollaborationSession (the database
write; its failure is caught and logged). -/
def startCollaborationSession (agents : List AgentRec)
    (sessions : List (String × SessionM)) (sessionId projectId topic : String)
    (participantTypes : List String) :
    String × List (String × SessionM) × SessionM :=
  let participants := participantsLoop agents participantTypes
  let session : SessionM :=
    { id := sessionId
      projectId := projectId
      participants := participants
      topic := topic
      messages := []
      sharedContext := []
      status := .active }
  (sessionId, setEntry sessions sessionId session, session)

/-- Reading of the participant sentence of the session claim that picks,
per requested type, the first currently enabled registered agent of that
type.  Stated from the claim wording, for comparison with the code. -/
def specParticipants (agents : List AgentRec) (participantTypes : List String) : List String :=
  participantTypes.filterMap
    (fun t => (agents.find? (fun a => a.enabled && a.agentType == t)).map (fun a => a.id))

/-! ## Workflow engine (AgentCollaborationHub.executeWorkflow) -/

/-- One workflow step: specialty, action label, prerequisite step ids
(the undefined dependency list is modeled by the empty list, which makes
the dependency check pass identically), and the unused parallel hint. -/
structure WfStep where
  agentType : String
  action : String
  dependencies : List String
  parallel : Bool
deriving DecidableEq

/-- Outcome of attempting one step. -/
inductive StepOutcome where
  | completed : AgentOutput → StepOutcome
  | skippedDeps
  | skippedAgent
  | failed
deriving DecidableEq

/-- AgentCollaborationHub.buildCollaborationData: keep the structured
data of previously completed steps whose payload is nonempty. -/
def buildCollaborationData (results : List (String × AgentOutput)) : List (String × DataMap) :=
  (results.filter (fun p => p.2.data ≠ [])).map (fun p => (p.1, p.2.data))

/-- The body of the step loop of executeWorkflow: dependency check, then
resolution of the first registered agent of the specialty, then the
dispatch.  proc stands for agent.processInput on the enriched context
(its arguments: the agent id and the accumulated collaboration data);
none models a thrown exception, which the catch swallows. -/
def execStep (agents : List AgentRec)
    (proc : String → List (String × DataMap) → Option AgentOutput)
    (results : List (String × AgentOutput)) (executed : List String)
    (s : WfStep) : StepOutcome :=
  if ¬ s.dependencies.all (fun d => decide (d ∈ executed)) then .skippedDeps
  else
    match agents.find? (fun a => a.agentType == s.agentType) with
    | none => .skippedAgent
    | some a =>
        if ¬ a.enabled then .skippedAgent
        else
          match proc a.id (buildCollaborationData results) with
          | some out => .completed out
          | none => .failed

/-- The step loop of executeWorkflow, producing the per-step trace and
the final results map.  A completed step stores its output under its
specialty and marks its specialty executed. -/
def runSteps (agents : List AgentRec)
    (proc : String → List (String × DataMap) → Option AgentOutput) :
    List WfStep → List (String × AgentOutput) → List String →
    List (WfStep × StepOutcome) × List (String × AgentOutput)
  | [], results, _ => ([], results)
  | s :: rest, results, executed =>
      match execStep agents proc results executed s with
      | .completed out =>
          let next := runSteps agents proc rest (setEntry results s.agentType out)
            (if s.agentType ∈ executed then executed else executed ++ [s.agentType])
          ((s, .completed out) :: next.1, next.2)
      | oc =>
          let next := runSteps agents proc rest results executed
          ((s, oc) :: next.1, next.2)

/-- Specialties of the steps a trace records as completed, in order. -/
def completedTypes : List (WfStep × StepOutcome) → List String
  | [] => []
  | (s, .completed _) :: tr => s.agentType :: completedTypes tr
  | _ :: tr => completedTypes tr

/-- A workflow definition (triggers elided: never read by execution). -/
structure WorkflowM where
  id : String
  name : String
  steps : List WfStep
deriving DecidableEq

/-- The step list of the registered full-creation workflow. -/
def fullCreationSteps : List WfStep :=
  [{ agentType := "theme", action := "analyze-theme", dependencies := [], parallel := false },
   { agentType := "world", action := "build-world", dependencies := ["theme"], parallel := false },
   { agentType := "character", action := "create-characters", dependencies := ["theme", "world"], parallel := false },
   { agentType := "relationship", action := "map-relationships", dependencies := ["character"], parallel := false },
   { agentType := "outline", action := "create-outline", dependencies := ["theme", "world", "character"], parallel := false },
   { agentType := "plot", action := "analyze-plot", dependencies := ["outline"], parallel := false }]

/-- The three workflows registered by initializeWorkflows. -/
def initialWorkflows : List (String × WorkflowM) :=
  [("full-creation",
    { id := "full-creation"
      name := "完整创作工作流"
      steps := fullCreationSteps }),
   ("character-development",
    { id := "character-development"
      name := "角色开发工作流"
      steps :=
        [{ agentType := "character", action := "create-character", dependencies := [], parallel := false },
         { agentType := "relationship", action := "analyze-relationships", dependencies := ["character"], parallel := false },
         { agentType := "dialogue", action := "develop-voice", dependencies := ["character"], parallel := false }] }),
   ("plot-optimization",
    { id := "plot-optimization"
      name := "情节优化工作流"
      steps :=
        [{ agentType := "plot", action := "analyze-structure", dependencies := [], parallel := false },
         { agentType := "outline", action := "suggest-improvements", dependencies := ["plot"], parallel := false },
         { agentType := "character", action := "check-arcs", dependencies := ["plot"], parallel := true }] })]

/-- AgentCollaborationHub.executeWorkflow: resolve the workflow by id
(unknown ids raise), then run the step loop from empty results and an
empty executed set. -/
def executeWorkflow (workflows : List (String × WorkflowM)) (agents : List AgentRec)
    (proc : String → List (String × DataMap) → Option AgentOutput)
    (workflowId : String) :
    Except String (List (WfStep × StepOutcome) × List (String × AgentOutput)) :=
  match lookupKey workflows workflowId with
  | none => .error ("Workflow not found: " ++ workflowId)
  | some wf => .ok (runSteps agents proc wf.steps [] [])

/-! ## Provider gateway (AIProvider, OpenAIProvider, AIProviderManager) -/

/-- AIProviderError: message, provider identity, optional code and
HTTP status. -/
structure ProviderError where
  message : String
  provider : String
  code : Option String
  statusCode : Option ℕ
deriving DecidableEq

/-- Failure shapes of one HTTP attempt as the axios client reports them:
an HTTP error response with status and optional error body, a timeout
abort, or any other transport failure. -/
inductive HttpErr where
  | response : ℕ → Option String → Option String → HttpErr
  | econnaborted : HttpErr
  | other : String → HttpErr
deriving DecidableEq

/-- One choice of a chat completion response body. -/
structure OpenAIChoice where
  content : Option String
  finishReason : Option String
deriving DecidableEq

/-- The chat completion response body (unused metadata fields elided). -/
structure OpenAIResp where
  choices : List OpenAIChoice
  modelName : String
deriving DecidableEq

/-- The response value the provider adapter returns to the gateway
(usage and metadata elided). -/
structure AIResponseM where
  content : String
  modelName : String
  finishReason : Option String
deriving DecidableEq

/-- Result of the retry loop: the final outcome, the backoff waits slept
between attempts, and the number of attempts consumed. -/
structure RetryResult (E A : Type) where
  result : Except E A
  waits : List ℕ
  attempts : ℕ
deriving DecidableEq

/-- The loop body of AIProvider.withRetry, recursing on the remaining
attempt budget.  op gives the outcome of the attempt with the given
number; on failure before the last attempt the loop sleeps
delay * 2 ^ (attempt - 1) and retries.  The zero-budget case cannot be
reached from the default call (maxRetries = 3) and is modeled by e0,
matching the trailing throw of the source. -/
def withRetryGo {E A : Type} (e0 : E) (op : ℕ → Except E A) (delay : ℕ) :
    ℕ → ℕ → RetryResult E A
  | _, 0 => { result := .error e0, waits := [], attempts := 0 }
  | attempt, fuel + 1 =>
      match op attempt with
      | .ok a => { result := .ok a, waits := [], attempts := 1 }
      | .error e =>
          match fuel with
          | 0 => { result := .error e, waits := [], attempts := 1 }
          | f + 1 =>
              let r := withRetryGo e0 op delay (attempt + 1) (f + 1)
              { result := r.result
                waits := delay * 2 ^ (attempt - 1) :: r.waits
                attempts := r.attempts + 1 }

/-- AIProvider.withRetry: attempts start at 1; the default arguments of
the source are maxRetries = 3 and delay = 1000. -/
def withRetry {E A : Type} (e0 : E) (op : ℕ → Except E A)
    (maxRetries delay : ℕ) : RetryResult E A :=
  withRetryGo e0 op delay 1 maxRetries

/-- A provider model configuration (AIModelConfig): identity, model
name, credentials, enabled flag.  A missing apiKey is the empty string
(both are falsy in the source checks). -/
structure ModelConfig where
  provider : String
  model : String
  apiKey : String
  enabled : Bool
deriving DecidableEq

/-- The catch branch of OpenAIProvider.sendRequest, classifying the
error that survived the retry loop into an AIProviderError. -/
def classifyOpenAIError : HttpErr → ProviderError
  | .response status code msg =>
      { message :=
          "OpenAI API错误 (" ++ toString status ++ ")" ++
            (match msg with
             | some m => ": " ++ m
             | none => "")
        provider := "openai"
        code := code
        statusCode := some status }
  | .econnaborted =>
      { message := "OpenAI请求超时", provider := "openai"
        code := some "TIMEOUT", statusCode := none }
  | .other m =>
      { message := "OpenAI请求失败: " ++ m, provider := "openai"
        code := some "REQUEST_FAILED", statusCode := none }

/-- The error used for the unreachable zero-budget retry case. -/
def noAttemptErr : HttpErr := .other "no attempt"

/-- OpenAIProvider.sendRequest.  http gives the outcome of the HTTP post
per attempt number.  The configuration checks precede the try block, so
they consume no attempt; inside the try, every HTTP failure goes through
withRetry with the default budget, and only the error that exhausts the
budget is classified.  The second component counts the attempts made. -/
def openAISendRequest (cfg : ModelConfig)
    (http : ℕ → Except HttpErr OpenAIResp) : Except ProviderError AIResponseM × ℕ :=
  if ¬ (cfg.enabled && cfg.model ≠ "") then
    (.error { message := "OpenAI配置无效", provider := "openai"
              code := some "INVALID_CONFIG", statusCode := none }, 0)
  else if cfg.apiKey = "" then
    (.error { message := "OpenAI API密钥未设置", provider := "openai"
              code := some "MISSING_API_KEY", statusCode := none }, 0)
  else
    let r := withRetry noAttemptErr http 3 1000
    match r.result with
    | .ok resp =>
        match resp.choices with
        | [] =>
            (.error { message := "OpenAI返回空响应", provider := "openai"
                      code := some "EMPTY_RESPONSE", statusCode := none }, r.attempts)
        | c :: _ =>
            (.ok { content := c.content.getD ""
                   modelName := resp.modelName
                   finishReason := c.finishReason }, r.attempts)
    | .error he => (.error (classifyOpenAIError he), r.attempts)

/-- AIProviderManager.sendRequest together with sendRequestWithFallback,
for one fixed request.  Each registered provider is represented by the
outcome its sendRequest yields for this request (every error a provider
adapter throws is an AIProviderError, so the instanceof test of the
source always holds here).  When the resolved target fails and more than
one provider is registered, exactly the first other key is tried and its
outcome is returned; the unreachable missing-fallback lookup falls back
to the original error. -/
def managerSend {α : Type} (providers : List (String × Except ProviderError α))
    (defaultProvider : Option String) (providerKey : Option String) :
    Except ProviderError α :=
  let target :=
    match providerKey with
    | some k => some k
    | none => defaultProvider
  match target with
  | none =>
      .error { message := "没有可用的AI Provider", provider := "manager"
               code := some "NO_PROVIDER_AVAILABLE", statusCode := none }
  | some t =>
      match lookupKey providers t with
      | none =>
          .error { message := "Provider不存在: " ++ t, provider := "manager"
                   code := some "PROVIDER_NOT_FOUND", statusCode := none }
      | some res =>
          match res with
          | .ok a => .ok a
          | .error e =>
              if providers.length > 1 then
                match (providers.map Prod.fst).filter (fun k => k ≠ t) with
                | [] =>
                    .error { message := "所有AI Provider都不可用", provider := "manager"
                             code := some "ALL_PROVIDERS_FAILED", statusCode := none }
                | k :: _ => (lookupKey providers k).getD (.error e)
              else .error e

/-- AIProviderManager registry state: the provider map (keys are
provider-model pairs, values keep the creating configuration) and the
defaultProvider reference. -/
structure PState where
  providers : List (String × ModelConfig)
  defaultProvider : Option String
deriving DecidableEq

/-- The provider identities createProvider supports; any other identity
makes it throw, which initializeProviders catches and skips. -/
def supportedProviders : List String := ["openai", "deepseek", "openrouter", "ollama"]

/-- One iteration of the initializeProviders loop: skip disabled
configs, skip identities createProvider cannot build (its throw is
caught and logged), otherwise register under the provider-model key and
claim the default slot when it is still unset. -/
def initStep (s : PState) (cfg : ModelConfig) : PState :=
  if ¬ cfg.enabled then s
  else if supportedProviders.contains cfg.provider then
    { providers := setEntry s.providers (cfg.provider ++ "-" ++ cfg.model) cfg
      defaultProvider :=
        if s.defaultProvider = none then some (cfg.provider ++ "-" ++ cfg.model)
        else s.defaultProvider }
  else s

/-- AIProviderManager.initializeProviders: clear the map (the default
reference is not reset), then register every enabled supported config,
setting the default only when it is still unset. -/
def initializeProviders (st : PState) (configs : List ModelConfig) : PState :=
  configs.foldl initStep { st with providers := [] }

/-- AIProviderManager.setDefaultProvider: unknown keys raise. -/
def setDefaultProviderM (st : PState) (key : String) : Except String PState :=
  if (lookupKey st.providers key).isSome then
    .ok { st with defaultProvider := some key }
  else .error ("Provider不存在: " ++ key)

/-- AIProviderManager.removeProvider: delete the key; when it was the
default, the first remaining key (or none) becomes the default. -/
def removeProviderM (st : PState) (key : String) : PState :=
  let ps := eraseEntry st.providers key
  { providers := ps
    defaultProvider :=
      if st.defaultProvider = some key then (ps.map Prod.fst).head?
      else st.defaultProvider }

/-- AIProviderManager.updateProvider: an enabled config is recreated and
stored (an unsupported identity makes createProvider throw, uncaught
here); a disabled config is removed. -/
def updateProviderM (st : PState) (cfg : ModelConfig) : Except String PState :=
  let key := cfg.provider ++ "-" ++ cfg.model
  if cfg.enabled then
    if supportedProviders.contains cfg.provider then
      .ok { providers := setEntry st.providers key cfg
            defaultProvider :=
              if st.defaultProvider = none then some key else st.defaultProvider }
    else .error ("Unsupported provider: " ++ cfg.provider)
  else .ok (removeProviderM st key)

/-- The claimed invariant: the default reference is null or names a key
of the live provider map. -/
def DefaultInv (st : PState) : Prop :=
  ∀ k, st.defaultProvider = some k → (lookupKey st.providers k).isSome

/-! ## Concrete scenario data used in the theorems -/

/-- A stub successful agent output for scenario runs. -/
def stubOut : AgentOutput := formatOutput "ok".toList [] [("x", JVal.emptyObj)] defaultConfidence []

/-- Scenario A agents: an enabled theme agent, a disabled world agent
(the only world agent), and an enabled character agent. -/
def scenarioAgents : List AgentRec :=
  [{ id := "theme-1", name := "Theme", agentType := "theme", description := "", enabled := true },
   { id := "world-1", name := "World", agentType := "world", description := "", enabled := false },
   { id := "char-1", name := "Character", agentType := "character", description := "", enabled := true }]

/-- A dispatch that always succeeds with the stub output. -/
def stubProc : String → List (String × DataMap) → Option AgentOutput :=
  fun _ _ => some stubOut

/-- Registry with two world agents: the first registered one disabled,
the second enabled. -/
def twoWorldAgents : List AgentRec :=
  [{ id := "w1", name := "W1", agentType := "world", description := "", enabled := false },
   { id := "w2", name := "W2", agentType := "world", description := "", enabled := true }]

/-- A valid agent context for concrete runs. -/
def okCtx : AgentContextM := { projectPresent := true, userInput := "hi".toList }

/-- A valid OpenAI model configuration for concrete runs. -/
def okCfg : ModelConfig :=
  { provider := "openai", model := "gpt-4", apiKey := "sk-test", enabled := true }

/-- An HTTP backend whose every attempt times out. -/
def timeoutHttp : ℕ → Except HttpErr OpenAIResp := fun _ => .error .econnaborted

/-- An HTTP backend whose every attempt is rejected with status 401
(an authentication failure reported by the service). -/
def authFailHttp : ℕ → Except HttpErr OpenAIResp :=
  fun _ => .error (.response 401 (some "invalid_api_key") (some "Incorrect API key provided"))

/-! ## Shared lemmas on the association list operations -/

theorem lookupKey_setEntry_self {β : Type} (l : List (String × β)) (k : String) (v : β) :
    lookupKey (setEntry l k v) k = some v := by
  induction l with
  | nil => simp [setEntry, lookupKey]
  | cons p rest ih =>
      by_cases h : p.1 = k
      · simp [setEntry, h, lookupKey]
      · simp [setEntry, h, lookupKey, ih]

theorem lookupKey_setEntry_ne {β : Type} (l : List (String × β)) (k j : String) (v : β)
    (h : j ≠ k) : lookupKey (setEntry l k v) j = lookupKey l j := by
  have hk : ¬ k = j := fun hh => h hh.symm
  induction l with
  | nil => simp [setEntry, lookupKey, hk]
  | cons p rest ih =>
      by_cases hp : p.1 = k
      · have hpj : ¬ p.1 = j := by
          rw [hp]
          exact hk
        simp [setEntry, hp, lookupKey, hk, hpj]
      · simp only [setEntry, hp, if_false, lookupKey, ih]

theorem lookupKey_eraseEntry_ne {β : Type} (l : List (String × β)) (k j : String)
    (h : j ≠ k) : lookupKey (eraseEntry l k) j = lookupKey l j := by
  have hk : ¬ k = j := fun hh => h hh.symm
  induction l with
  | nil => simp [eraseEntry]
  | cons p rest ih =>
      by_cases hp : p.1 = k
      · have hpj : ¬ p.1 = j := by
          rw [hp]
          exact hk
        simp [eraseEntry, hp, lookupKey, hpj, hk]
      · simp [eraseEntry, hp, lookupKey, ih]

theorem lookupKey_isSome_of_mem_keys {β : Type} (l : List (String × β)) (k : String)
    (h : k ∈ l.map Prod.fst) : (lookupKey l k).isSome := by
  induction l with
  | nil => simp at h
  | cons p rest ih =>
      by_cases hp : p.1 = k
      · simp [lookupKey, hp]
      · have : k ∈ rest.map Prod.fst := by
          simp only [List.map_cons, List.mem_cons] at h
          rcases h with h | h
          · exact absurd h.symm hp
          · exact h
        simp [lookupKey, hp, ih this]

/-! ## C8: batch processing -/

/-- C8: batchProcess over N requests yields exactly N result slots in
request order; slot i carries the agentId of request i and the outcome
of dispatching request i, so a failure at position k is recorded in slot
k while every other slot holds its normal output; the loop never aborts.
The last conjunct runs the three-request instance where only the middle
request fails. -/
theorem batch_process_slots_C8 :
    ∀ (send : String → AgentContextM → Except String AgentOutput)
      (requests : List (String × AgentContextM)),
      (batchProcess send requests).length = requests.length ∧
      (∀ i : ℕ, (batchProcess send requests)[i]? =
        (requests[i]?).map (fun r => (r.1, send r.1 r.2))) ∧
      batchProcess
          (fun agentId _ => if agentId = "b" then Except.error "boom" else Except.ok stubOut)
          [("a", okCtx), ("b", okCtx), ("c", okCtx)] =
        [("a", Except.ok stubOut), ("b", Except.error "boom"), ("c", Except.ok stubOut)] := by
  intro send requests
  refine ⟨?_, ?_, by rfl⟩
  · induction requests with
    | nil => rfl
    | cons r rest ih => simp [batchProcess, ih]
  · intro i
    induction requests generalizing i with
    | nil => simp [batchProcess]
    | cons r rest ih =>
        cases i with
        | zero => simp [batchProcess]
        | succ n => simp [batchProcess, ih]

/-! ## C6: disabled agents are rejected before dispatch -/

theorem map_id_ite (agentId : String) (e : Bool) (l : List AgentRec) :
    (l.map (fun a => if a.id = agentId then { a with enabled := e } else a)).map AgentRec.id
      = l.map AgentRec.id := by
  induction l with
  | nil => rfl
  | cons a rest ih =>
      by_cases h : a.id = agentId
      · simp [h, ih]
      · simp [h, ih]

theorem findAgent_eraseAgent_self (agents : List AgentRec) (agentId : String)
    (h : (agents.map AgentRec.id).Nodup) :
    findAgent (eraseAgent agents agentId) agentId = none := by
  induction agents with
  | nil => rfl
  | cons b rest ih =>
      simp only [List.map_cons, List.nodup_cons] at h
      by_cases hb : b.id = agentId
      · have hnot : ∀ a ∈ rest, ¬ ((a.id == agentId) = true) := by
          intro a ha hbeq
          have ha2 : a.id = agentId := by simpa using hbeq
          apply h.1
          rw [hb]
          rw [← ha2]
          exact List.mem_map_of_mem AgentRec.id ha
        simp only [eraseAgent, if_pos hb]
        exact List.find?_eq_none.mpr hnot
      · have ht := ih h.2
        simp only [eraseAgent, if_neg hb]
        show List.find? (fun a => a.id == agentId) (b :: eraseAgent rest agentId) = none
        rw [List.find?_cons_of_neg]
        · exact ht
        · simpa using hb

/-- C6: after setAgentEnabled with the false flag the agent id no longer
resolves in the live registry, and sendMessageToAgent for an unresolved
or disabled id fails immediately with the configuration error message,
with no dispatch (and hence no prompt construction or provider call)
ever attempted: the recorded dispatch list is empty and the outcome does
not depend on the dispatch function. -/
theorem disabled_agent_rejected_C6 :
    (∀ (st : MgrState) (agentId : String),
       (st.agents.map AgentRec.id).Nodup →
       findAgent (setAgentEnabled st agentId false).agents agentId = none) ∧
    (∀ (agents : List AgentRec) (proc : String → Except String AgentOutput) (agentId : String),
       findAgent agents agentId = none →
       sendMessageToAgent agents proc agentId =
         (Except.error ("Agent not found: " ++ agentId), [])) ∧
    (∀ (agents : List AgentRec) (proc : String → Except String AgentOutput)
       (agentId : String) (a : AgentRec),
       findAgent agents agentId = some a → a.enabled = false →
       sendMessageToAgent agents proc agentId =
         (Except.error ("Agent is disabled: " ++ agentId), [])) := by
  refine ⟨?_, ?_, ?_⟩
  · intro st agentId hnodup
    have hids : ((updateAgentEnabled st agentId false).agents.map AgentRec.id).Nodup := by
      have heq : (updateAgentEnabled st agentId false).agents
          = st.agents.map (fun a => if a.id = agentId then { a with enabled := false } else a) :=
        rfl
      rw [heq, map_id_ite]
      exact hnodup
    by_cases hs : (findAgent (updateAgentEnabled st agentId false).agents agentId).isSome = true
    · have hset : setAgentEnabled st agentId false =
          { updateAgentEnabled st agentId false with
            agents := eraseAgent (updateAgentEnabled st agentId false).agents agentId } := by
        simp [setAgentEnabled, hs]
      rw [hset]
      exact findAgent_eraseAgent_self _ _ hids
    · have hnone : findAgent (updateAgentEnabled st agentId false).agents agentId = none := by
        rcases hoption : findAgent (updateAgentEnabled st agentId false).agents agentId with _ | a
        · rfl
        · rw [hoption] at hs
          simp at hs
      have hset : setAgentEnabled st agentId false = updateAgentEnabled st agentId false := by
        simp [setAgentEnabled, hs]
      rw [hset]
      exact hnone
  · intro agents proc agentId h
    simp [sendMessageToAgent, h]
  · intro agents proc agentId a h he
    simp [sendMessageToAgent, h, he]

/-- Witness for C6 at concrete inputs: a one-agent registry where the
agent gets disabled, and the two-world-agent registry where the disabled
first agent is addressed directly. -/
theorem disabled_agent_rejected_C6_witness :
    findAgent (setAgentEnabled
        { configs := [{ id := "t1", name := "T", agentType := "theme", description := "", enabled := true }]
          agents := [{ id := "t1", name := "T", agentType := "theme", description := "", enabled := true }] }
        "t1" false).agents "t1" = none ∧
    sendMessageToAgent twoWorldAgents (fun _ => Except.ok stubOut) "w1" =
      (Except.error ("Agent is disabled: " ++ "w1"), []) :=
  ⟨disabled_agent_rejected_C6.1 _ "t1" (by decide),
   disabled_agent_rejected_C6.2.2 twoWorldAgents _ "w1"
     { id := "w1", name := "W1", agentType := "world", description := "", enabled := false }
     (by decide) (by decide)⟩

/-! ## C4: confidence is always inside the unit interval -/

/-- C4: every AgentOutput the agent implementations can produce — the
formatting path at any of the call-site confidence constants (default
0.8 and the per-agent overrides) and the error handling path — has a
confidence inside the closed unit interval; and the theme agent
dispatch only produces such outputs, whatever the backend does. -/
theorem confidence_unit_interval_C4 :
    (∀ o : AgentOutput, ProducedOutput o → 0 ≤ o.confidence ∧ o.confidence ≤ 1) ∧
    (∀ (backend : Except String (List Char)) (decode : List Char → Option DataMap)
       (ctx : AgentContextM), ProducedOutput (themeProcessInput backend decode ctx)) := by
  constructor
  · rintro o (⟨c, s, d, conf, tags, hconf, rfl⟩ | ⟨e, cn, rfl⟩)
    · show 0 ≤ conf ∧ conf ≤ 1
      simp only [agentConfidences, List.mem_cons, List.not_mem_nil, or_false] at hconf
      rcases hconf with rfl | rfl | rfl | rfl | rfl | rfl | rfl <;> norm_num
    · show (0 : ℚ) ≤ 0 ∧ (0 : ℚ) ≤ 1
      norm_num
  · intro backend decode ctx
    by_cases h : validateContext ctx
    · cases backend with
      | error e =>
          right
          exact ⟨e, "主题分析".toList, by simp [themeProcessInput, h]⟩
      | ok r =>
          left
          have heq : themeProcessInput (Except.ok r) decode ctx =
              formatOutput (parseStructuredOutput decode r).mainContent
                (parseStructuredOutput decode r).suggestions
                (themeData (parseStructuredOutput decode r).data) 0.85 themeTags := by
            simp [themeProcessInput, h]
          exact ⟨_, _, _, 0.85, themeTags, by norm_num [agentConfidences], heq⟩
    · right
      refine ⟨"Invalid context", "processInput".toList, ?_⟩
      simp [themeProcessInput, h]

/-- Witness for C4: the degraded output itself. -/
theorem confidence_unit_interval_C4_witness :
    0 ≤ (handleError "x" []).confidence ∧ (handleError "x" []).confidence ≤ 1 :=
  confidence_unit_interval_C4.1 _ (Or.inr ⟨"x", [], rfl⟩)

/-! ## C3: dispatch failures become degraded outputs, but with a
nonempty data payload -/

/-- C3 counterexample: on a thrown backend error the degraded output has
a nonempty data payload (it carries the error message), refuting the
claimed empty data payload. -/
theorem theme_error_data_nonempty_C3_cex :
    (themeProcessInput (Except.error "boom") (fun _ => none) okCtx).data ≠ [] := by
  decide

/-- C3 as amended: any exception during dispatch (and an invalid
context) is converted — never propagated, the function is total into
AgentOutput — into a degraded output with confidence 0, follow-up
required, the human-readable diagnostic text, and a data payload
carrying the error message under the key error (not an empty payload). -/
theorem theme_error_degraded_C3 :
    ∀ (decode : List Char → Option DataMap) (ctx : AgentContextM) (e : String),
      validateContext ctx = true →
      (themeProcessInput (Except.error e) decode ctx).confidence = 0 ∧
      (themeProcessInput (Except.error e) decode ctx).requiresFollowUp = true ∧
      (themeProcessInput (Except.error e) decode ctx).data = [("error", JVal.s e)] ∧
      (themeProcessInput (Except.error e) decode ctx).content =
        "抱歉，在主题分析过程中遇到了问题。请稍后重试或检查配置。".toList := by
  intro decode ctx e h
  have heq : themeProcessInput (Except.error e) decode ctx = handleError e "主题分析".toList := by
    simp [themeProcessInput, h]
  rw [heq]
  exact ⟨rfl, rfl, rfl, rfl⟩

/-- Witness for C3 at a concrete context and error. -/
theorem theme_error_degraded_C3_witness :
    validateContext okCtx = true ∧
    ((themeProcessInput (Except.error "boom") (fun _ => none) okCtx).confidence = 0 ∧
     (themeProcessInput (Except.error "boom") (fun _ => none) okCtx).requiresFollowUp = true ∧
     (themeProcessInput (Except.error "boom") (fun _ => none) okCtx).data
       = [("error", JVal.s "boom")] ∧
     (themeProcessInput (Except.error "boom") (fun _ => none) okCtx).content =
       "抱歉，在主题分析过程中遇到了问题。请稍后重试或检查配置。".toList) :=
  ⟨by decide, theme_error_degraded_C3 (fun _ => none) okCtx "boom" (by decide)⟩

/-! ## C5: structured output parsing -/

theorem matchSection_none_iff (m content : List Char) :
    matchSection m content = none ↔ splitAtMarker m content = none := by
  simp [matchSection]

theorem removeSection_no_marker (m content : List Char)
    (h : splitAtMarker m content = none) : removeSection m content = content := by
  simp [removeSection, h]

/-- C5 counterexample: a response with no structured data section but
with a suggestions section parses with empty data (as claimed) while its
mainContent differs from the full response text, because the suggestions
span is removed, refuting the claimed mainContent equation. -/
theorem parse_structured_C5_cex :
    matchSection dataMarker "hi【建议】x".toList = none ∧
    (parseStructuredOutput (fun _ => none) "hi【建议】x".toList).data = [] ∧
    (parseStructuredOutput (fun _ => none) "hi【建议】x".toList).mainContent ≠
      "hi【建议】x".toList := by
  exact ⟨by decide, by decide, by decide⟩

/-- C5 as amended: parsing is total and never fails the call; when the
structured data section is absent the data payload is empty, and if
additionally no suggestions section is present and the text carries no
surrounding whitespace, mainContent is the full response text; when the
data section is present but its contents do not decode, the data payload
defaults to empty. -/
theorem parse_structured_C5_amended :
    ∀ (decode : List Char → Option DataMap) (content : List Char),
      (matchSection dataMarker content = none →
        (parseStructuredOutput decode content).data = []) ∧
      (∀ cap, matchSection dataMarker content = some cap →
        decode (trimChars cap) = none →
        (parseStructuredOutput decode content).data = []) ∧
      (matchSection dataMarker content = none →
        matchSection suggMarker content = none →
        trimChars content = content →
        (parseStructuredOutput decode content).mainContent = content) := by
  intro decode content
  refine ⟨?_, ?_, ?_⟩
  · intro hd
    simp [parseStructuredOutput, hd]
  · intro cap hd hdec
    simp [parseStructuredOutput, hd, hdec]
  · intro hd hs htrim
    have h1 : removeSection suggMarker content = content :=
      removeSection_no_marker _ _ ((matchSection_none_iff _ _).mp hs)
    have h2 : removeSection dataMarker content = content :=
      removeSection_no_marker _ _ ((matchSection_none_iff _ _).mp hd)
    simp [parseStructuredOutput, h1, h2, htrim]

/-- Witness for C5 at a concrete sectionless response text. -/
theorem parse_structured_C5_amended_witness :
    matchSection dataMarker "hello".toList = none ∧
    (parseStructuredOutput (fun _ => none) "hello".toList).data = [] ∧
    (parseStructuredOutput (fun _ => none) "hello".toList).mainContent = "hello".toList := by
  have h := parse_structured_C5_amended (fun _ => none) "hello".toList
  exact ⟨by decide, h.1 (by decide), h.2.2 (by decide) (by decide) (by decide)⟩

/-! ## C10: collaboration session creation -/

theorem participantsLoop_sound :
    ∀ (agents : List AgentRec) (types : List String) (p : String),
      p ∈ participantsLoop agents types →
      ∃ a, a ∈ agents ∧ a.enabled = true ∧ a.agentType ∈ types ∧ a.id = p := by
  intro agents types
  induction types with
  | nil =>
      intro p hp
      simp [participantsLoop] at hp
  | cons t ts ih =>
      intro p hp
      rcases hfind : agents.find? (fun a => a.agentType == t) with _ | a
      · simp only [participantsLoop, hfind] at hp
        obtain ⟨a, ha, he, hty, hid⟩ := ih p hp
        exact ⟨a, ha, he, List.mem_cons_of_mem t hty, hid⟩
      · by_cases he : a.enabled = true
        · simp only [participantsLoop, hfind, if_pos he, List.mem_cons] at hp
          rcases hp with rfl | hp
          · refine ⟨a, List.mem_of_find?_eq_some hfind, he, ?_, rfl⟩
            have hta := List.find?_some hfind
            have : a.agentType = t := by simpa using hta
            rw [this]
            exact List.mem_cons_self t ts
          · obtain ⟨b, hb, hbe, hbty, hbid⟩ := ih p hp
            exact ⟨b, hb, hbe, List.mem_cons_of_mem t hbty, hbid⟩
        · simp only [participantsLoop, hfind, if_neg he] at hp
          obtain ⟨b, hb, hbe, hbty, hbid⟩ := ih p hp
          exact ⟨b, hb, hbe, List.mem_cons_of_mem t hbty, hbid⟩

theorem participantsLoop_eq_filterMap :
    ∀ (agents : List AgentRec) (types : List String),
      participantsLoop agents types = types.filterMap (fun t =>
        match agents.find? (fun a => a.agentType == t) with
        | some a => if a.enabled then some a.id else none
        | none => none) := by
  intro agents types
  induction types with
  | nil => rfl
  | cons t ts ih =>
      rcases hfind : agents.find? (fun a => a.agentType == t) with _ | a
      · simp [participantsLoop, hfind, List.filterMap_cons, ih]
      · by_cases he : a.enabled = true
        · simp [participantsLoop, hfind, he, List.filterMap_cons, ih]
        · simp [participantsLoop, hfind, he, List.filterMap_cons, ih]

/-- C10 counterexample: with two registered world agents whose first is
disabled and second enabled, the session gets an empty participant list
although an enabled registered agent of the requested specialty exists;
the one-enabled-agent-per-type reading of the claim would give the
second agent. -/
theorem session_participants_C10_cex :
    (startCollaborationSession twoWorldAgents [] "s1" "p1" "t" ["world"]).2.2.participants
      = [] ∧
    (∃ a, a ∈ twoWorldAgents ∧ a.enabled = true ∧ a.agentType ∈ ["world"]) ∧
    specParticipants twoWorldAgents ["world"] = ["w2"] := by
  refine ⟨by decide, ⟨⟨"w2", "W2", "world", "", true⟩, by decide, rfl, by decide⟩, by decide⟩

/-- C10 as amended: the session takes one participant per requested
type, namely the first registered agent of that type and only when that
very agent is enabled (a type whose first registered agent is disabled
is dropped even if a later enabled agent of the type exists); every
participant is the id of a registered enabled agent of a requested
specialty; and the session is created with status active, stored under
the generated id, persisted, and its id returned even when the
participant list is empty. -/
theorem session_creation_C10_amended :
    ∀ (agents : List AgentRec) (sessions : List (String × SessionM))
      (sessionId projectId topic : String) (participantTypes : List String),
      (startCollaborationSession agents sessions sessionId projectId topic
        participantTypes).1 = sessionId ∧
      ((startCollaborationSession agents sessions sessionId projectId topic
         participantTypes).2.2.id = sessionId ∧
       (startCollaborationSession agents sessions sessionId projectId topic
         participantTypes).2.2.status = SessionStatus.active ∧
       (startCollaborationSession agents sessions sessionId projectId topic
         participantTypes).2.2.projectId = projectId ∧
       (startCollaborationSession agents sessions sessionId projectId topic
         participantTypes).2.2.messages = []) ∧
      lookupKey (startCollaborationSession agents sessions sessionId projectId topic
          participantTypes).2.1 sessionId =
        some (startCollaborationSession agents sessions sessionId projectId topic
          participantTypes).2.2 ∧
      (startCollaborationSession agents sessions sessionId projectId topic
        participantTypes).2.2.participants = participantsLoop agents participantTypes ∧
      (∀ p ∈ participantsLoop agents participantTypes,
        ∃ a, a ∈ agents ∧ a.enabled = true ∧ a.agentType ∈ participantTypes ∧ a.id = p) ∧
      participantsLoop agents participantTypes = participantTypes.filterMap (fun t =>
        match agents.find? (fun a => a.agentType == t) with
        | some a => if a.enabled then some a.id else none
        | none => none) := by
  intro agents sessions sessionId projectId topic participantTypes
  refine ⟨rfl, ⟨rfl, rfl, rfl, rfl⟩, ?_, rfl, ?_, ?_⟩
  · exact lookupKey_setEntry_self sessions sessionId _
  · exact participantsLoop_sound agents participantTypes
  · exact participantsLoop_eq_filterMap agents participantTypes

/-- Witness for C10 at the scenario registry. -/
theorem session_creation_C10_amended_witness :
    ∃ a, a ∈ scenarioAgents ∧ a.enabled = true ∧
      a.agentType ∈ ["theme", "world"] ∧ a.id = "theme-1" :=
  (session_creation_C10_amended scenarioAgents [] "s" "p" "t"
    ["theme", "world"]).2.2.2.2.1 "theme-1" (by decide)

/-! ## C9: the default provider reference -/

theorem initStep_inv (s : PState) (cfg : ModelConfig) (hs : DefaultInv s) :
    DefaultInv (initStep s cfg) := by
  intro k hk
  by_cases he : cfg.enabled = true
  · by_cases hsup : supportedProviders.contains cfg.provider = true
    · have hmem : cfg.provider ∈ supportedProviders := by simpa using hsup
      have hdp : (initStep s cfg).defaultProvider =
          (if s.defaultProvider = none then some (cfg.provider ++ "-" ++ cfg.model)
           else s.defaultProvider) := by
        simp [initStep, he, hmem]
      have hpv : (initStep s cfg).providers =
          setEntry s.providers (cfg.provider ++ "-" ++ cfg.model) cfg := by
        simp [initStep, he, hmem]
      rw [hdp] at hk
      rw [hpv]
      rcases hd : s.defaultProvider with _ | j
      · rw [hd, if_pos rfl] at hk
        injection hk with hk2
        rw [← hk2, lookupKey_setEntry_self]
        rfl
      · rw [hd, if_neg (by simp)] at hk
        by_cases hkk : k = cfg.provider ++ "-" ++ cfg.model
        · rw [hkk, lookupKey_setEntry_self]
          rfl
        · rw [lookupKey_setEntry_ne s.providers _ k cfg hkk]
          apply hs
          rw [hd]
          exact hk
    · have hmem : cfg.provider ∉ supportedProviders := by simpa using hsup
      have hred : initStep s cfg = s := by simp [initStep, he, hmem]
      rw [hred] at hk ⊢
      exact hs k hk
  · have hred : initStep s cfg = s := by simp [initStep, he]
    rw [hred] at hk ⊢
    exact hs k hk

theorem foldl_initStep_inv (configs : List ModelConfig) :
    ∀ s : PState, DefaultInv s → DefaultInv (configs.foldl initStep s) := by
  induction configs with
  | nil => intro s hs; exact hs
  | cons c rest ih =>
      intro s hs
      rw [List.foldl_cons]
      exact ih _ (initStep_inv s c hs)

theorem removeProviderM_inv (st : PState) (key : String) (hs : DefaultInv st) :
    DefaultInv (removeProviderM st key) := by
  intro k hk
  by_cases hd : st.defaultProvider = some key
  · have hdp : (removeProviderM st key).defaultProvider =
        ((eraseEntry st.providers key).map Prod.fst).head? := by
      simp [removeProviderM, hd]
    rw [hdp] at hk
    have hmem : k ∈ (eraseEntry st.providers key).map Prod.fst := by
      rcases heq : (eraseEntry st.providers key).map Prod.fst with _ | ⟨a, l⟩
      · rw [heq] at hk
        simp at hk
      · rw [heq] at hk
        simp at hk
        subst hk
        exact List.mem_cons_self _ _
    have : (removeProviderM st key).providers = eraseEntry st.providers key := rfl
    rw [this]
    exact lookupKey_isSome_of_mem_keys _ k hmem
  · have hdp : (removeProviderM st key).defaultProvider = st.defaultProvider := by
      simp [removeProviderM, hd]
    rw [hdp] at hk
    have hne : k ≠ key := by
      intro hkk
      rw [hkk] at hk
      exact hd hk
    have : (removeProviderM st key).providers = eraseEntry st.providers key := rfl
    rw [this, lookupKey_eraseEntry_ne st.providers key k hne]
    exact hs k hk

/-- C9 counterexample: initializing the gateway twice with different
enabled configurations leaves the default reference pointing at the key
of the first run, which the second run cleared from the map, so the
claimed invariant fails after a plain sequence of initialization calls. -/
theorem provider_default_stale_C9_cex :
    ((initializeProviders
        (initializeProviders { providers := [], defaultProvider := none }
          [{ provider := "openai", model := "a", apiKey := "k", enabled := true }])
        [{ provider := "openai", model := "b", apiKey := "k", enabled := true }]).defaultProvider
      = some "openai-a") ∧
    (lookupKey (initializeProviders
        (initializeProviders { providers := [], defaultProvider := none }
          [{ provider := "openai", model := "a", apiKey := "k", enabled := true }])
        [{ provider := "openai", model := "b", apiKey := "k", enabled := true }]).providers
      "openai-a" = none) ∧
    ¬ DefaultInv (initializeProviders
        (initializeProviders { providers := [], defaultProvider := none }
          [{ provider := "openai", model := "a", apiKey := "k", enabled := true }])
        [{ provider := "openai", model := "b", apiKey := "k", enabled := true }]) := by
  refine ⟨by decide, by decide, ?_⟩
  intro hinv
  have h1 := hinv "openai-a" (by decide)
  rw [show (lookupKey (initializeProviders
      (initializeProviders { providers := [], defaultProvider := none }
        [{ provider := "openai", model := "a", apiKey := "k", enabled := true }])
      [{ provider := "openai", model := "b", apiKey := "k", enabled := true }]).providers
    "openai-a") = none from by decide] at h1
  simp at h1

/-- C9 as amended: the default reference invariant is established by an
initialization from a fresh (unset-default) state and preserved by
setDefaultProvider, removeProvider and updateProvider; removing the
current default reassigns it to the first remaining key or null; but
re-initialization of an already-initialized gateway can leave a stale
default, as the counterexample shows, because initializeProviders clears
the map without resetting the default reference. -/
theorem provider_default_C9_amended :
    (∀ (st : PState) (configs : List ModelConfig),
       st.defaultProvider = none → DefaultInv (initializeProviders st configs)) ∧
    (∀ (st : PState) (key : String) (st2 : PState),
       setDefaultProviderM st key = .ok st2 → DefaultInv st2) ∧
    (∀ (st : PState) (key : String), DefaultInv st → DefaultInv (removeProviderM st key)) ∧
    (∀ (st : PState) (cfg : ModelConfig) (st2 : PState),
       DefaultInv st → updateProviderM st cfg = .ok st2 → DefaultInv st2) ∧
    (∀ (st : PState) (key : String), st.defaultProvider = some key →
       (removeProviderM st key).defaultProvider =
         ((eraseEntry st.providers key).map Prod.fst).head?) := by
  refine ⟨?_, ?_, ?_, ?_, ?_⟩
  · intro st configs h
    apply foldl_initStep_inv
    intro k hk
    have : st.defaultProvider = some k := hk
    rw [h] at this
    exact Option.noConfusion this
  · intro st key st2 hok
    by_cases hsome : (lookupKey st.providers key).isSome = true
    · have : st2 = { st with defaultProvider := some key } := by
        simp [setDefaultProviderM, hsome] at hok
        exact hok.symm
      rw [this]
      intro k hk
      have hkk : key = k := by
        injection hk
      rw [← hkk]
      exact hsome
    · simp [setDefaultProviderM, hsome] at hok
  · intro st key hs
    exact removeProviderM_inv st key hs
  · intro st cfg st2 hs hok
    by_cases he : cfg.enabled = true
    · by_cases hmem : cfg.provider ∈ supportedProviders
      · have hst2 : st2 =
            { providers := setEntry st.providers (cfg.provider ++ "-" ++ cfg.model) cfg
              defaultProvider :=
                if st.defaultProvider = none then some (cfg.provider ++ "-" ++ cfg.model)
                else st.defaultProvider } := by
          simp [updateProviderM, he, hmem] at hok
          exact hok.symm
        rw [hst2]
        intro k hk
        simp only at hk ⊢
        rcases hd : st.defaultProvider with _ | j
        · rw [hd, if_pos rfl] at hk
          injection hk with hk2
          rw [← hk2, lookupKey_setEntry_self]
          rfl
        · rw [hd, if_neg (by simp)] at hk
          by_cases hkk : k = cfg.provider ++ "-" ++ cfg.model
          · rw [hkk, lookupKey_setEntry_self]
            rfl
          · rw [lookupKey_setEntry_ne st.providers _ k cfg hkk]
            apply hs
            rw [hd]
            exact hk
      · simp [updateProviderM, he, hmem] at hok
    · have hst2 : st2 = removeProviderM st (cfg.provider ++ "-" ++ cfg.model) := by
        simp [updateProviderM, he] at hok
        exact hok.symm
      rw [hst2]
      exact removeProviderM_inv st _ hs
  · intro st key h
    simp [removeProviderM, h]

/-- Witness for C9: a single initialization from the fresh state leaves
a default that resolves in the map. -/
theorem provider_default_C9_amended_witness :
    (lookupKey (initializeProviders { providers := [], defaultProvider := none }
        [{ provider := "openai", model := "a", apiKey := "k", enabled := true }]).providers
      "openai-a").isSome = true :=
  provider_default_C9_amended.1 { providers := [], defaultProvider := none }
    [{ provider := "openai", model := "a", apiKey := "k", enabled := true }]
    rfl "openai-a" (by decide)

/-! ## Retry loop lemmas shared by the gateway claims -/

theorem withRetryGo_fail_step {E A : Type} (e0 : E) (op : ℕ → Except E A)
    (delay attempt f : ℕ) (e : E) (h : op attempt = .error e) :
    withRetryGo e0 op delay attempt (f + 2) =
      { result := (withRetryGo e0 op delay (attempt + 1) (f + 1)).result
        waits := delay * 2 ^ (attempt - 1) :: (withRetryGo e0 op delay (attempt + 1) (f + 1)).waits
        attempts := (withRetryGo e0 op delay (attempt + 1) (f + 1)).attempts + 1 } := by
  conv_lhs => rw [withRetryGo]
  rw [h]

theorem withRetryGo_waits_sorted {E A : Type} (e0 : E) (op : ℕ → Except E A)
    (delay : ℕ) (hd : 1 ≤ delay) :
    ∀ (fuel attempt : ℕ), 1 ≤ attempt →
      List.Pairwise (· < ·) (withRetryGo e0 op delay attempt fuel).waits ∧
      ∀ w ∈ (withRetryGo e0 op delay attempt fuel).waits, delay * 2 ^ (attempt - 1) ≤ w := by
  intro fuel
  induction fuel with
  | zero =>
      intro attempt _
      simp [withRetryGo]
  | succ f ihf =>
      intro attempt ha
      cases hop : op attempt with
      | ok a => simp [withRetryGo, hop]
      | error e =>
          cases f with
          | zero => simp [withRetryGo, hop]
          | succ f2 =>
              have ih := ihf (attempt + 1) (by omega)
              have harith : (attempt + 1) - 1 = attempt := by omega
              have hbnd : ∀ w ∈ (withRetryGo e0 op delay (attempt + 1) (f2 + 1)).waits,
                  delay * 2 ^ (attempt - 1) ≤ w := by
                intro w hw
                have hb := ih.2 w hw
                rw [harith] at hb
                have hp : 2 ^ (attempt - 1) < 2 ^ attempt := by
                  apply Nat.pow_lt_pow_right (by norm_num)
                  omega
                have hle : delay * 2 ^ (attempt - 1) ≤ delay * 2 ^ attempt :=
                  Nat.mul_le_mul_left delay (le_of_lt hp)
                omega
              rw [show f2 + 1 + 1 = f2 + 2 from rfl,
                withRetryGo_fail_step e0 op delay attempt f2 e hop]
              constructor
              · rw [List.pairwise_cons]
                refine ⟨?_, ih.1⟩
                intro w hw
                have hb := ih.2 w hw
                rw [harith] at hb
                have hp : 2 ^ (attempt - 1) < 2 ^ attempt := by
                  apply Nat.pow_lt_pow_right (by norm_num)
                  omega
                have hlt : delay * 2 ^ (attempt - 1) < delay * 2 ^ attempt :=
                  mul_lt_mul_of_pos_left hp (lt_of_lt_of_le zero_lt_one hd)
                omega
              · intro w hw
                rw [List.mem_cons] at hw
                rcases hw with rfl | hw
                · exact le_refl _
                · exact hbnd w hw

theorem withRetry_three_failures {E A : Type} (e0 : E) (op : ℕ → Except E A)
    (e1 e2 e3 : E) (h1 : op 1 = .error e1) (h2 : op 2 = .error e2)
    (h3 : op 3 = .error e3) :
    withRetry e0 op 3 1000 =
      { result := .error e3, waits := [1000, 2000], attempts := 3 } := by
  simp [withRetry, withRetryGo, h1, h2, h3]

theorem openAISendRequest_all_fail (cfg : ModelConfig)
    (http : ℕ → Except HttpErr OpenAIResp)
    (he : cfg.enabled = true) (hm : cfg.model ≠ "") (hkey : cfg.apiKey ≠ "")
    (e1 e2 e3 : HttpErr) (h1 : http 1 = .error e1) (h2 : http 2 = .error e2)
    (h3 : http 3 = .error e3) :
    openAISendRequest cfg http = (.error (classifyOpenAIError e3), 3) := by
  have hr := withRetry_three_failures noAttemptErr http e1 e2 e3 h1 h2 h3
  simp [openAISendRequest, he, hm, hkey, hr]

theorem managerSend_two_fallback {α : Type} (k1 k2 : String) (e1 : ProviderError)
    (r2 : Except ProviderError α) (hne : k2 ≠ k1) :
    managerSend [(k1, .error e1), (k2, r2)] (some k1) none = r2 := by
  have hne2 : ¬ (k1 = k2) := fun hh => hne hh.symm
  cases r2 with
  | ok a => simp [managerSend, lookupKey, hne, hne2]
  | error e => simp [managerSend, lookupKey, hne, hne2]

theorem managerSend_three_fallback {α : Type} (k1 k2 k3 : String) (e1 : ProviderError)
    (r2 r3 : Except ProviderError α) (hne : k2 ≠ k1) (hne3 : k3 ≠ k1) :
    managerSend [(k1, .error e1), (k2, r2), (k3, r3)] (some k1) none = r2 := by
  have hne2 : ¬ (k1 = k2) := fun hh => hne hh.symm
  cases r2 with
  | ok a => simp [managerSend, lookupKey, hne, hne2, hne3]
  | error e => simp [managerSend, lookupKey, hne, hne2, hne3]

/-! ## C2: retry ceiling, strictly increasing backoff, single fallback -/

/-- C2: the retry loop at the default settings makes exactly three
attempts on persistent failure with the backoff waits 1000 and 2000
between them; backoff waits are strictly increasing for every positive
delay; when the resolved provider fails, the gateway returns the outcome
of exactly the first alternate key, whatever any further provider would
do; and composing the OpenAI adapter over an always-timing-out backend
with a succeeding fallback makes send succeed with the fallback
response. -/
theorem gateway_retry_fallback_C2 :
    (∀ (E A : Type) (e0 : E) (op : ℕ → Except E A) (maxRetries delay : ℕ),
       1 ≤ delay → List.Pairwise (· < ·) (withRetry e0 op maxRetries delay).waits) ∧
    (∀ (E A : Type) (e0 : E) (op : ℕ → Except E A) (e1 e2 e3 : E),
       op 1 = .error e1 → op 2 = .error e2 → op 3 = .error e3 →
       withRetry e0 op 3 1000 =
         { result := .error e3, waits := [1000, 2000], attempts := 3 }) ∧
    (∀ (α : Type) (k1 k2 k3 : String) (e1 : ProviderError)
       (r2 r3 : Except ProviderError α), k2 ≠ k1 → k3 ≠ k1 →
       managerSend [(k1, .error e1), (k2, r2), (k3, r3)] (some k1) none = r2) ∧
    (∀ (cfg : ModelConfig) (k1 k2 : String) (resp : AIResponseM),
       cfg.enabled = true → cfg.model ≠ "" → cfg.apiKey ≠ "" → k2 ≠ k1 →
       openAISendRequest cfg timeoutHttp =
         (.error { message := "OpenAI请求超时", provider := "openai"
                   code := some "TIMEOUT", statusCode := none }, 3) ∧
       managerSend [(k1, (openAISendRequest cfg timeoutHttp).1), (k2, .ok resp)]
         (some k1) none = .ok resp) := by
  refine ⟨?_, ?_, ?_, ?_⟩
  · intro E A e0 op maxRetries delay hd
    exact (withRetryGo_waits_sorted e0 op delay hd maxRetries 1 (le_refl 1)).1
  · intro E A e0 op e1 e2 e3 h1 h2 h3
    exact withRetry_three_failures e0 op e1 e2 e3 h1 h2 h3
  · intro α k1 k2 k3 e1 r2 r3 h2 h3
    exact managerSend_three_fallback k1 k2 k3 e1 r2 r3 h2 h3
  · intro cfg k1 k2 resp he hm hkey hne
    have hsend := openAISendRequest_all_fail cfg timeoutHttp he hm hkey
      .econnaborted .econnaborted .econnaborted rfl rfl rfl
    refine ⟨hsend, ?_⟩
    have h1 : (openAISendRequest cfg timeoutHttp).1 =
        Except.error (classifyOpenAIError .econnaborted) := by
      rw [hsend]
    rw [h1]
    exact managerSend_two_fallback k1 k2 _ (.ok resp) hne

/-- Witness for C2: the concrete configuration with a timing-out primary
and a succeeding fallback. -/
theorem gateway_retry_fallback_C2_witness :
    openAISendRequest okCfg timeoutHttp =
      (.error { message := "OpenAI请求超时", provider := "openai"
                code := some "TIMEOUT", statusCode := none }, 3) ∧
    managerSend [("p1", (openAISendRequest okCfg timeoutHttp).1),
        ("p2", .ok { content := "hello", modelName := "m", finishReason := none })]
      (some "p1") none =
      .ok { content := "hello", modelName := "m", finishReason := none } :=
  gateway_retry_fallback_C2.2.2.2 okCfg "p1" "p2"
    { content := "hello", modelName := "m", finishReason := none }
    rfl (by decide) (by decide) (by decide)

/-! ## C7: which failures consume retry attempts -/

/-- C7 counterexample: a service-side authentication failure (HTTP 401)
is not short-circuited: it consumes all three retry attempts before
being classified, refuting the claim that only retryable failures enter
the retry loop. -/
theorem provider_retry_C7_cex :
    (openAISendRequest okCfg authFailHttp).2 = 3 ∧
    (openAISendRequest okCfg authFailHttp).1 =
      .error { message := "OpenAI API错误 (401): Incorrect API key provided"
               provider := "openai", code := some "invalid_api_key"
               statusCode := some 401 } := by
  have hsend := openAISendRequest_all_fail okCfg authFailHttp rfl (by decide) (by decide)
    (.response 401 (some "invalid_api_key") (some "Incorrect API key provided"))
    (.response 401 (some "invalid_api_key") (some "Incorrect API key provided"))
    (.response 401 (some "invalid_api_key") (some "Incorrect API key provided"))
    rfl rfl rfl
  rw [hsend]
  exact ⟨rfl, by decide⟩

/-- C7 as amended: the configuration checks that precede the network
call (disabled or modelless configuration, missing API key) short
circuit to a terminal provider error with zero attempts consumed and
independently of the backend; but every failure of the network call
itself — authentication rejections included — is retried up to the
full ceiling, with classification happening only after the budget is
exhausted. -/
theorem provider_shortcircuit_C7_amended :
    (∀ (cfg : ModelConfig) (http : ℕ → Except HttpErr OpenAIResp),
       ¬ (cfg.enabled = true ∧ cfg.model ≠ "") →
       openAISendRequest cfg http =
         (.error { message := "OpenAI配置无效", provider := "openai"
                   code := some "INVALID_CONFIG", statusCode := none }, 0)) ∧
    (∀ (cfg : ModelConfig) (http : ℕ → Except HttpErr OpenAIResp),
       cfg.enabled = true → cfg.model ≠ "" → cfg.apiKey = "" →
       openAISendRequest cfg http =
         (.error { message := "OpenAI API密钥未设置", provider := "openai"
                   code := some "MISSING_API_KEY", statusCode := none }, 0)) ∧
    (∀ (cfg : ModelConfig) (http : ℕ → Except HttpErr OpenAIResp),
       cfg.enabled = true → cfg.model ≠ "" → cfg.apiKey ≠ "" →
       ∀ (e1 e2 e3 : HttpErr),
         http 1 = .error e1 → http 2 = .error e2 → http 3 = .error e3 →
         (openAISendRequest cfg http).2 = 3) := by
  refine ⟨?_, ?_, ?_⟩
  · intro cfg http h
    have hcond : ¬ ((cfg.enabled && decide (cfg.model ≠ "")) = true) := by
      intro hcontra
      rw [Bool.and_eq_true, decide_eq_true_eq] at hcontra
      exact h hcontra
    unfold openAISendRequest
    rw [if_pos hcond]
  · intro cfg http he hm hk0
    simp [openAISendRequest, he, hm, hk0]
  · intro cfg http he hm hkey e1 e2 e3 h1 h2 h3
    rw [openAISendRequest_all_fail cfg http he hm hkey e1 e2 e3 h1 h2 h3]

/-- Witness for C7: a modelless configuration is rejected with zero
attempts, while the 401-failing backend consumes three. -/
theorem provider_shortcircuit_C7_amended_witness :
    openAISendRequest { provider := "openai", model := "", apiKey := "k", enabled := true }
        authFailHttp =
      (.error { message := "OpenAI配置无效", provider := "openai"
                code := some "INVALID_CONFIG", statusCode := none }, 0) ∧
    (openAISendRequest okCfg authFailHttp).2 = 3 :=
  ⟨provider_shortcircuit_C7_amended.1 _ authFailHttp (by simp),
   provider_shortcircuit_C7_amended.2.2 okCfg authFailHttp rfl (by decide) (by decide)
     _ _ _ rfl rfl rfl⟩

/-! ## C1: workflow ordering and skip propagation -/

theorem mem_insertExecuted (t : String) (executed : List String) (x : String) :
    x ∈ (if t ∈ executed then executed else executed ++ [t]) ↔ x ∈ executed ∨ x = t := by
  by_cases hmem : t ∈ executed
  · rw [if_pos hmem]
    constructor
    · exact Or.inl
    · rintro (hx | rfl)
      · exact hx
      · exact hmem
  · rw [if_neg hmem]
    simp [List.mem_append]

theorem execStep_skippedDeps_of_unmet (agents : List AgentRec)
    (proc : String → List (String × DataMap) → Option AgentOutput)
    (results : List (String × AgentOutput)) (executed : List String) (s : WfStep)
    (d : String) (hd : d ∈ s.dependencies) (hne : d ∉ executed) :
    execStep agents proc results executed s = .skippedDeps := by
  have hcond : ¬ (s.dependencies.all (fun d => decide (d ∈ executed)) = true) := by
    intro hall
    rw [List.all_eq_true] at hall
    have hx := hall d hd
    rw [decide_eq_true_eq] at hx
    exact hne hx
  unfold execStep
  rw [if_pos hcond]

theorem execStep_completed_deps (agents : List AgentRec)
    (proc : String → List (String × DataMap) → Option AgentOutput)
    (results : List (String × AgentOutput)) (executed : List String) (s : WfStep)
    (out : AgentOutput) (h : execStep agents proc results executed s = .completed out) :
    ∀ d ∈ s.dependencies, d ∈ executed := by
  by_cases hall : s.dependencies.all (fun d => decide (d ∈ executed)) = true
  · intro d hd
    rw [List.all_eq_true] at hall
    have hx := hall d hd
    rwa [decide_eq_true_eq] at hx
  · exfalso
    unfold execStep at h
    rw [if_pos hall] at h
    exact StepOutcome.noConfusion h

theorem execStep_skip_of_no_enabled (agents : List AgentRec)
    (proc : String → List (String × DataMap) → Option AgentOutput)
    (results : List (String × AgentOutput)) (executed : List String) (s : WfStep)
    (hno : ∀ a ∈ agents, a.agentType = s.agentType → a.enabled = false) :
    execStep agents proc results executed s = .skippedDeps ∨
    execStep agents proc results executed s = .skippedAgent := by
  unfold execStep
  by_cases hall : s.dependencies.all (fun d => decide (d ∈ executed)) = true
  · rw [if_neg (not_not_intro hall)]
    rcases hfind : agents.find? (fun a => a.agentType == s.agentType) with _ | a
    · rw [hfind]
      right
      rfl
    · rw [hfind]
      have hpred := List.find?_some hfind
      have hty : a.agentType = s.agentType := by simpa using hpred
      have ha : a.enabled = false := hno a (List.mem_of_find?_eq_some hfind) hty
      right
      simp [ha]
  · left
    rw [if_pos hall]

theorem runSteps_trace_steps (agents : List AgentRec)
    (proc : String → List (String × DataMap) → Option AgentOutput) :
    ∀ (steps : List WfStep) (results : List (String × AgentOutput)) (executed : List String),
      ((runSteps agents proc steps results executed).1).map Prod.fst = steps := by
  intro steps
  induction steps with
  | nil =>
      intro results executed
      rfl
  | cons s rest ih =>
      intro results executed
      cases hoc : execStep agents proc results executed s with
      | completed out => simp [runSteps, hoc, ih]
      | skippedDeps => simp [runSteps, hoc, ih]
      | skippedAgent => simp [runSteps, hoc, ih]
      | failed => simp [runSteps, hoc, ih]

theorem runSteps_decomp (agents : List AgentRec)
    (proc : String → List (String × DataMap) → Option AgentOutput) :
    ∀ (steps : List WfStep) (results : List (String × AgentOutput)) (executed : List String)
      (t1 : List (WfStep × StepOutcome)) (s : WfStep) (oc : StepOutcome)
      (t2 : List (WfStep × StepOutcome)),
      (runSteps agents proc steps results executed).1 = t1 ++ (s, oc) :: t2 →
      ∃ results2 executed2,
        (∀ x, x ∈ executed2 ↔ x ∈ executed ∨ x ∈ completedTypes t1) ∧
        oc = execStep agents proc results2 executed2 s := by
  intro steps
  induction steps with
  | nil =>
      intro results executed t1 s oc t2 h
      simp [runSteps] at h
  | cons s0 rest ih =>
      intro results executed t1 s oc t2 h
      cases hoc : execStep agents proc results executed s0 with
      | completed out =>
          simp only [runSteps, hoc] at h
          cases t1 with
          | nil =>
              rw [List.nil_append] at h
              injection h with h1 h2
              obtain ⟨hs, hoc2⟩ := Prod.mk.injEq _ _ _ _ ▸ h1
              refine ⟨results, executed, ?_, ?_⟩
              · intro x
                simp [completedTypes]
              · rw [← hs, ← hoc2]
                exact hoc.symm
          | cons e t1m =>
              rw [List.cons_append] at h
              injection h with h1 h2
              obtain ⟨r2, ex2, hiff, hoc2⟩ := ih _ _ t1m s oc t2 h2
              refine ⟨r2, ex2, ?_, hoc2⟩
              intro x
              rw [hiff x, mem_insertExecuted]
              rw [← h1]
              simp only [completedTypes, List.mem_cons]
              tauto
      | skippedDeps =>
          simp only [runSteps, hoc] at h
          cases t1 with
          | nil =>
              rw [List.nil_append] at h
              injection h with h1 h2
              obtain ⟨hs, hoc2⟩ := Prod.mk.injEq _ _ _ _ ▸ h1
              refine ⟨results, executed, ?_, ?_⟩
              · intro x
                simp [completedTypes]
              · rw [← hs, ← hoc2]
                exact hoc.symm
          | cons e t1m =>
              rw [List.cons_append] at h
              injection h with h1 h2
              obtain ⟨r2, ex2, hiff, hoc2⟩ := ih _ _ t1m s oc t2 h2
              refine ⟨r2, ex2, ?_, hoc2⟩
              intro x
              rw [hiff x, ← h1]
              simp [completedTypes]
      | skippedAgent =>
          simp only [runSteps, hoc] at h
          cases t1 with
          | nil =>
              rw [List.nil_append] at h
              injection h with h1 h2
              obtain ⟨hs, hoc2⟩ := Prod.mk.injEq _ _ _ _ ▸ h1
              refine ⟨results, executed, ?_, ?_⟩
              · intro x
                simp [completedTypes]
              · rw [← hs, ← hoc2]
                exact hoc.symm
          | cons e t1m =>
              rw [List.cons_append] at h
              injection h with h1 h2
              obtain ⟨r2, ex2, hiff, hoc2⟩ := ih _ _ t1m s oc t2 h2
              refine ⟨r2, ex2, ?_, hoc2⟩
              intro x
              rw [hiff x, ← h1]
              simp [completedTypes]
      | failed =>
          simp only [runSteps, hoc] at h
          cases t1 with
          | nil =>
              rw [List.nil_append] at h
              injection h with h1 h2
              obtain ⟨hs, hoc2⟩ := Prod.mk.injEq _ _ _ _ ▸ h1
              refine ⟨results, executed, ?_, ?_⟩
              · intro x
                simp [completedTypes]
              · rw [← hs, ← hoc2]
                exact hoc.symm
          | cons e t1m =>
              rw [List.cons_append] at h
              injection h with h1 h2
              obtain ⟨r2, ex2, hiff, hoc2⟩ := ih _ _ t1m s oc t2 h2
              refine ⟨r2, ex2, ?_, hoc2⟩
              intro x
              rw [hiff x, ← h1]
              simp [completedTypes]

theorem runSteps_dead_type (agents : List AgentRec)
    (proc : String → List (String × DataMap) → Option AgentOutput) :
    ∀ (steps : List WfStep) (results : List (String × AgentOutput)) (executed : List String)
      (t : String),
      t ∉ executed →
      (∀ s out, (s, StepOutcome.completed out) ∈ (runSteps agents proc steps results executed).1 →
        s.agentType ≠ t) →
      ∀ s2 oc2, (s2, oc2) ∈ (runSteps agents proc steps results executed).1 →
        t ∈ s2.dependencies → oc2 = StepOutcome.skippedDeps := by
  intro steps
  induction steps with
  | nil =>
      intro results executed t ht hnc s2 oc2 hmem hdep
      simp [runSteps] at hmem
  | cons s0 rest ih =>
      intro results executed t ht hnc s2 oc2 hmem hdep
      cases hoc : execStep agents proc results executed s0 with
      | completed out =>
          simp only [runSteps, hoc] at hmem hnc
          rcases List.mem_cons.mp hmem with heq | hmemtail
          · obtain ⟨hq1, hq2⟩ := Prod.mk.injEq _ _ _ _ ▸ heq
            exfalso
            have hdep0 : t ∈ s0.dependencies := hq1 ▸ hdep
            have hskip := execStep_skippedDeps_of_unmet agents proc results executed s0 t hdep0 ht
            rw [hskip] at hoc
            exact StepOutcome.noConfusion hoc
          · have ht2 : t ∉ (if s0.agentType ∈ executed then executed
                else executed ++ [s0.agentType]) := by
              rw [mem_insertExecuted]
              rintro (hx | hx)
              · exact ht hx
              · exact hnc s0 out (List.mem_cons_self _ _) hx.symm
            exact ih _ _ t ht2 (fun s3 out3 hm => hnc s3 out3 (List.mem_cons_of_mem _ hm))
              s2 oc2 hmemtail hdep
      | skippedDeps =>
          simp only [runSteps, hoc] at hmem hnc
          rcases List.mem_cons.mp hmem with heq | hmemtail
          · obtain ⟨hq1, hq2⟩ := Prod.mk.injEq _ _ _ _ ▸ heq
            exact hq2
          · exact ih _ _ t ht (fun s3 out3 hm => hnc s3 out3 (List.mem_cons_of_mem _ hm))
              s2 oc2 hmemtail hdep
      | skippedAgent =>
          simp only [runSteps, hoc] at hmem hnc
          rcases List.mem_cons.mp hmem with heq | hmemtail
          · obtain ⟨hq1, hq2⟩ := Prod.mk.injEq _ _ _ _ ▸ heq
            exfalso
            have hdep0 : t ∈ s0.dependencies := hq1 ▸ hdep
            have hskip := execStep_skippedDeps_of_unmet agents proc results executed s0 t hdep0 ht
            rw [hskip] at hoc
            exact StepOutcome.noConfusion hoc
          · exact ih _ _ t ht (fun s3 out3 hm => hnc s3 out3 (List.mem_cons_of_mem _ hm))
              s2 oc2 hmemtail hdep
      | failed =>
          simp only [runSteps, hoc] at hmem hnc
          rcases List.mem_cons.mp hmem with heq | hmemtail
          · obtain ⟨hq1, hq2⟩ := Prod.mk.injEq _ _ _ _ ▸ heq
            exfalso
            have hdep0 : t ∈ s0.dependencies := hq1 ▸ hdep
            have hskip := execStep_skippedDeps_of_unmet agents proc results executed s0 t hdep0 ht
            rw [hskip] at hoc
            exact StepOutcome.noConfusion hoc
          · exact ih _ _ t ht (fun s3 out3 hm => hnc s3 out3 (List.mem_cons_of_mem _ hm))
              s2 oc2 hmemtail hdep

/-- C1: for every workflow execution, steps are attempted in declaration
order (the trace lists exactly the declared steps in order); a step is
recorded completed only when every declared prerequisite was completed
by an earlier step; a step with an unmet prerequisite or whose specialty
has no enabled registered agent ends skipped, never completed; a
specialty that is never completed forces every step depending on it,
directly or transitively, to be dependency-skipped; and on the
registered full-creation workflow with the only world agent disabled,
theme completes while world, character and all later steps are skipped. -/
theorem workflow_order_skip_C1 :
    ∀ (agents : List AgentRec) (proc : String → List (String × DataMap) → Option AgentOutput)
      (steps : List WfStep),
      (((runSteps agents proc steps [] []).1).map Prod.fst = steps) ∧
      (∀ t1 s out t2,
        (runSteps agents proc steps [] []).1 = t1 ++ (s, StepOutcome.completed out) :: t2 →
        ∀ d ∈ s.dependencies, d ∈ completedTypes t1) ∧
      (∀ t1 s oc t2,
        (runSteps agents proc steps [] []).1 = t1 ++ (s, oc) :: t2 →
        ((∃ d, d ∈ s.dependencies ∧ d ∉ completedTypes t1) ∨
         (∀ a ∈ agents, a.agentType = s.agentType → a.enabled = false)) →
        oc = StepOutcome.skippedDeps ∨ oc = StepOutcome.skippedAgent) ∧
      (∀ t : String,
        (∀ s out, (s, StepOutcome.completed out) ∈ (runSteps agents proc steps [] []).1 →
          s.agentType ≠ t) →
        ∀ s2 oc2, (s2, oc2) ∈ (runSteps agents proc steps [] []).1 →
          t ∈ s2.dependencies → oc2 = StepOutcome.skippedDeps) ∧
      (executeWorkflow initialWorkflows scenarioAgents stubProc "full-creation" =
        Except.ok (fullCreationSteps.zip
            [StepOutcome.completed stubOut, StepOutcome.skippedAgent,
             StepOutcome.skippedDeps, StepOutcome.skippedDeps,
             StepOutcome.skippedDeps, StepOutcome.skippedDeps],
          [("theme", stubOut)])) := by
  intro agents proc steps
  refine ⟨runSteps_trace_steps agents proc steps [] [], ?_, ?_, ?_, by rfl⟩
  · intro t1 s out t2 h d hd
    obtain ⟨r2, ex2, hiff, hoc⟩ := runSteps_decomp agents proc steps [] [] t1 s _ t2 h
    have hdeps := execStep_completed_deps agents proc r2 ex2 s out hoc.symm
    rcases (hiff d).mp (hdeps d hd) with hx | hx
    · simp at hx
    · exact hx
  · intro t1 s oc t2 h hcase
    obtain ⟨r2, ex2, hiff, hoc⟩ := runSteps_decomp agents proc steps [] [] t1 s oc t2 h
    rcases hcase with ⟨d, hd, hnot⟩ | hno
    · left
      rw [hoc]
      apply execStep_skippedDeps_of_unmet agents proc r2 ex2 s d hd
      intro hmem
      rcases (hiff d).mp hmem with hx | hx
      · simp at hx
      · exact hnot hx
    · rw [hoc]
      exact execStep_skip_of_no_enabled agents proc r2 ex2 s hno
  · intro t hnc
    exact runSteps_dead_type agents proc steps [] [] t (by simp) hnc

/-- Witness for C1: the skip conjunct applied at the world step of the
scenario trace, whose specialty has no enabled agent. -/
theorem workflow_order_skip_C1_witness :
    StepOutcome.skippedAgent = StepOutcome.skippedDeps ∨
    StepOutcome.skippedAgent = StepOutcome.skippedAgent :=
  (workflow_order_skip_C1 scenarioAgents stubProc fullCreationSteps).2.2.1
    [({ agentType := "theme", action := "analyze-theme", dependencies := [],
        parallel := false }, StepOutcome.completed stubOut)]
    { agentType := "world", action := "build-world", dependencies := ["theme"],
      parallel := false }
    StepOutcome.skippedAgent
    [({ agentType := "character", action := "create-characters",
        dependencies := ["theme", "world"], parallel := false }, StepOutcome.skippedDeps),
     ({ agentType := "relationship", action := "map-relationships",
        dependencies := ["character"], parallel := false }, StepOutcome.skippedDeps),
     ({ agentType := "outline", action := "create-outline",
        dependencies := ["theme", "world", "character"], parallel := false },
      StepOutcome.skippedDeps),
     ({ agentType := "plot", action := "analyze-plot", dependencies := ["outline"],
        parallel := false }, StepOutcome.skippedDeps)]
    (by rfl)
    (Or.inr (by decide))
